import Mathlib

/-!
# Verification of the cardinham-tennis utilization engine

Shallow embedding of the aggregation core of `main.go`:

* `calculateBookingHoursInRange` (interval clipper),
* `calculateDailyStats` / `calculateWeeklyStats` (aggregators),
* `getWeekStart` (week bucketing),
* `parseBookings` (booking normalizer).

Modelling conventions:

* Go `time.Time` values are modelled at minute granularity by `GoTime`:
  an absolute day index (`day`, days since 0001-01-01 in Go's proleptic
  Gregorian calendar, whose day 0 is a Monday) together with the
  hour-of-day and minute-of-hour fields.  The code under verification
  only inspects `Hour()`, `Minute()`, the calendar day (via
  `Format("2006-01-02")`, `time.Date` with the same Y/M/D, `AddDate`
  day arithmetic and `Weekday()`), and differences `Sub`; all of these
  are functions of `(day, hour, minute)`, so sub-minute precision is
  irrelevant to the claims and is dropped.  A single location is
  assumed (the program never mixes locations).
* Go `float64` arithmetic is modelled exactly over `ℚ`; `time.Duration`
  (int64 nanoseconds in Go) is modelled as a signed number of minutes,
  and `Duration.Hours()` as division by 60 in `ℚ`.
* Go maps (`dayMap`, `weekMap`) have unspecified iteration order; they
  are modelled as association lists in first-insertion key order, one
  admissible iteration order.  Every per-bucket quantity proved here is
  a sum over `ℚ`, hence independent of the order chosen.
-/

set_option autoImplicit false

namespace CardinhamTennis

/-- Model of Go `time.Time` at minute granularity: `day` is the absolute
day index (days since 0001-01-01; day 0 is a Monday), `hour` the
hour-of-day, `min` the minute-of-hour. -/
structure GoTime where
  day : Int
  hour : Int
  min : Int
  deriving DecidableEq, Repr

/-- A well-formed time-of-day: hour in [0,24), minute in [0,60). -/
def GoTime.Valid (t : GoTime) : Prop :=
  0 ≤ t.hour ∧ t.hour < 24 ∧ 0 ≤ t.min ∧ t.min < 60

instance (t : GoTime) : Decidable t.Valid := by
  unfold GoTime.Valid; infer_instance

/-- Go `t2.Sub(t1)` expressed in minutes. -/
def GoTime.sub (t2 t1 : GoTime) : Int :=
  (t2.day - t1.day) * 1440 + (t2.hour - t1.hour) * 60 + (t2.min - t1.min)

/-- Minutes since midnight of `t`'s own day (`t.hour*60 + t.min`). -/
def GoTime.tod (t : GoTime) : Int :=
  t.hour * 60 + t.min

/-- Go `t.Weekday()` (Sunday = 0 … Saturday = 6).  Day 0 of the absolute
calendar (0001-01-01) is a Monday, so the weekday of absolute day `d` is
`(d + 1) % 7`. -/
def GoTime.weekday (t : GoTime) : Int :=
  (t.day + 1) % 7

/-- Go struct `Booking` (main.go): title, start/end instants and the
stored `Duration = EndTime.Sub(StartTime)`, in minutes. -/
structure Booking where
  title : String
  startTime : GoTime
  endTime : GoTime
  durationMin : Int
  deriving DecidableEq, Repr

/-- Go struct `UtilizationConfig` (main.go). -/
structure UtilizationConfig where
  startHour : Int
  endHour : Int
  showDailyStats : Bool
  showWeeklyStats : Bool
  deriving DecidableEq, Repr

/-- Go struct `DayStats` (main.go).  `totalHours`/`utilization` are the
float64 fields, modelled over `ℚ`. -/
structure DayStats where
  date : GoTime
  bookings : List Booking
  totalHours : ℚ
  utilization : ℚ
  deriving DecidableEq, Repr

/-- Go struct `WeekStats` (main.go). -/
structure WeekStats where
  weekStart : GoTime
  weekEnd : GoTime
  totalHours : ℚ
  utilization : ℚ
  days : List DayStats
  deriving DecidableEq, Repr

/-- Embedding of `calculateBookingHoursInRange` (main.go lines 419-449).

Go's `time.Date(y, m, d, h, 0, 0, 0, loc)` with the year/month/day of an
existing time and a new hour `h` is `{day := t.day, hour := h, min := 0}`
in this model. -/
def calculateBookingHoursInRange (booking : Booking) (startHour endHour : Int) : ℚ :=
  -- If it's an all-day event, count full operating hours
  if booking.startTime.hour = 0 ∧ booking.startTime.min = 0 then
    ((endHour - startHour : Int) : ℚ)
  else
    -- Adjust start time if it's before operating hours
    let effectiveStart : GoTime :=
      if booking.startTime.hour < startHour then
        { day := booking.startTime.day, hour := startHour, min := 0 }
      else booking.startTime
    -- Adjust end time if it's after operating hours
    let effectiveEnd : GoTime :=
      if booking.endTime.hour > endHour then
        { day := booking.endTime.day, hour := endHour, min := 0 }
      else booking.endTime
    let hours : ℚ := ((GoTime.sub effectiveEnd effectiveStart : Int) : ℚ) / 60
    -- Ensure we don't return negative hours
    if hours < 0 then 0 else hours

/-- The day-bucket key of a booking: `booking.StartTime.Format("2006-01-02")`
identifies exactly the calendar day, i.e. the absolute day index. -/
def dayKey (b : Booking) : Int := b.startTime.day

/-- Appending one keyed element to an association-list model of a Go map
(`m[key] = append(m[key], b)`): extends the existing bucket, or adds a
new bucket at the end when the key is fresh. -/
def addToGroup (groups : List (Int × List Booking)) (k : Int) (b : Booking) :
    List (Int × List Booking) :=
  match groups with
  | [] => [(k, [b])]
  | (k', bs) :: rest =>
      if k = k' then (k', bs ++ [b]) :: rest
      else (k', bs) :: addToGroup rest k b

/-- The grouping loop `for _, booking := range bookings { m[key] = append(...) }`,
with buckets listed in first-insertion order. -/
def groupBookingsBy (keyOf : Booking → Int) (bookings : List Booking) :
    List (Int × List Booking) :=
  bookings.foldl (fun gs b => addToGroup gs (keyOf b) b) []

/-- The `DayStats` built for one bucket of `calculateDailyStats`
(main.go lines 393-414): `time.Parse("2006-01-02", dateKey)` yields
midnight of that day. -/
def dayStatsOf (config : UtilizationConfig) (bucket : Int × List Booking) : DayStats :=
  let totalHours : ℚ :=
    (bucket.2.map (fun b => calculateBookingHoursInRange b config.startHour config.endHour)).sum
  let availableHours : ℚ := ((config.endHour - config.startHour : Int) : ℚ)
  { date := { day := bucket.1, hour := 0, min := 0 }
    bookings := bucket.2
    totalHours := totalHours
    utilization := totalHours / availableHours * 100 }

/-- Embedding of `calculateDailyStats` (main.go lines 382-417). -/
def calculateDailyStats (bookings : List Booking) (config : UtilizationConfig) :
    List DayStats :=
  (groupBookingsBy dayKey bookings).map (dayStatsOf config)

/-- Embedding of `getWeekStart` (main.go lines 493-501).  Go's
`time.Monday = 1`; `AddDate(0, 0, -n)` shifts the day and keeps the
time-of-day. -/
def getWeekStart (date : GoTime) : GoTime :=
  let weekday := date.weekday
  let d := weekday - 1
  let daysToSubtract := if d < 0 then d + 7 else d
  { day := date.day - daysToSubtract, hour := date.hour, min := date.min }

/-- The week-bucket key: `getWeekStart(b.StartTime).Format("2006-01-02")`,
i.e. the absolute day index of the week's Monday. -/
def weekKey (b : Booking) : Int := (getWeekStart b.startTime).day

/-- The `WeekStats` built for one bucket of `calculateWeeklyStats`
(main.go lines 464-488): `weekStart` is parsed back from the key
(midnight), `weekEnd = weekStart.AddDate(0, 0, 6)`. -/
def weekStatsOf (config : UtilizationConfig) (bucket : Int × List Booking) : WeekStats :=
  let dailyStats := calculateDailyStats bucket.2 config
  let totalHours : ℚ := (dailyStats.map (fun d => d.totalHours)).sum
  let availableHours : ℚ := ((7 * (config.endHour - config.startHour) : Int) : ℚ)
  { weekStart := { day := bucket.1, hour := 0, min := 0 }
    weekEnd := { day := bucket.1 + 6, hour := 0, min := 0 }
    totalHours := totalHours
    utilization := totalHours / availableHours * 100
    days := dailyStats }

/-- Embedding of `calculateWeeklyStats` (main.go lines 451-491). -/
def calculateWeeklyStats (bookings : List Booking) (config : UtilizationConfig) :
    List WeekStats :=
  (groupBookingsBy weekKey bookings).map (weekStatsOf config)

/-- Model of `calendar.EventDateTime`: Go uses the empty string for an
absent `DateTime`/`Date` field. -/
structure EventDateTime where
  dateTime : String
  date : String
  deriving DecidableEq, Repr

/-- Model of the fields of `calendar.Event` read by `parseBookings`:
`Start`/`End` pointers (nil = `none`) and the summary string. -/
structure Event where
  summary : String
  start : Option EventDateTime
  end_ : Option EventDateTime
  deriving DecidableEq, Repr

/-- Embedding of `parseBookings` (main.go lines 333-380), parameterized by
the two external library parsers it calls — `time.Parse(time.RFC3339, ·)`
and `time.Parse("2006-01-02", ·)` — as total functions returning `none`
exactly when Go's `time.Parse` returns an error. -/
def parseBookings (parseRFC3339 parseDateOnly : String → Option GoTime) :
    List Event → List Booking
  | [] => []
  | item :: rest =>
    match item.start, item.end_ with
    | some st, some en =>
      -- Parse start time
      let startRes : Option GoTime :=
        if st.dateTime ≠ "" then parseRFC3339 st.dateTime else parseDateOnly st.date
      match startRes with
      | none => parseBookings parseRFC3339 parseDateOnly rest
      | some startTime =>
        -- Parse end time
        let endRes : Option GoTime :=
          if en.dateTime ≠ "" then parseRFC3339 en.dateTime else parseDateOnly en.date
        match endRes with
        | none => parseBookings parseRFC3339 parseDateOnly rest
        | some endTime =>
          let title := if item.summary = "" then "(No title)" else item.summary
          { title := title
            startTime := startTime
            endTime := endTime
            durationMin := GoTime.sub endTime startTime }
            :: parseBookings parseRFC3339 parseDateOnly rest
    | _, _ => parseBookings parseRFC3339 parseDateOnly rest

/-- Spec-side per-record normalizer (section 4.1 of the spec): `none` for a
record missing a start or end marker or with an unparsable timestamp,
otherwise exactly one fully-filled `Booking`.  Used to state C9 as a
refinement of `parseBookings`. -/
def markerTime (parseRFC3339 parseDateOnly : String → Option GoTime)
    (m : EventDateTime) : Option GoTime :=
  if m.dateTime ≠ "" then parseRFC3339 m.dateTime else parseDateOnly m.date

/-- Spec-side conversion of a single raw event record into at most one
`Booking`, following section 4.1 of the spec word for word. -/
def eventToBookingSpec (parseRFC3339 parseDateOnly : String → Option GoTime)
    (item : Event) : Option Booking :=
  match item.start, item.end_ with
  | some st, some en =>
    (markerTime parseRFC3339 parseDateOnly st).bind fun s =>
      (markerTime parseRFC3339 parseDateOnly en).map fun e =>
        { title := if item.summary = "" then "(No title)" else item.summary
          startTime := s
          endTime := e
          durationMin := GoTime.sub e s }
  | _, _ => none

/-! ## Theorems -/

/-- C4: a booking flagged all-day (start hour 0 and minute 0) is credited
exactly `endHour - startHour` clipped hours, regardless of its end
timestamp. -/
theorem hoursInRange_allDay (b : Booking) (startHour endHour : Int)
    (h0 : b.startTime.hour = 0) (hm : b.startTime.min = 0) :
    calculateBookingHoursInRange b startHour endHour = ((endHour - startHour : Int) : ℚ) := by
  simp [calculateBookingHoursInRange, h0, hm]

/-- Witness for C4 at a concrete all-day booking and the default window. -/
theorem hoursInRange_allDay_witness :
    calculateBookingHoursInRange
        { title := "all day", startTime := { day := 100, hour := 0, min := 0 },
          endTime := { day := 101, hour := 0, min := 0 }, durationMin := 1440 } 6 18
      = ((18 - 6 : Int) : ℚ) :=
  hoursInRange_allDay _ 6 18 rfl rfl

/-- The final guard of the clipper (`if hours < 0 { return 0 }`) yields a
non-negative value for any argument. -/
theorem negGuard_nonneg (x : ℚ) : 0 ≤ if x < 0 then (0 : ℚ) else x := by
  split
  · exact le_refl 0
  · exact not_lt.mp (by assumption)

/-- C5: with a well-formed window (`startHour < endHour`) the clipper never
returns a negative value. -/
theorem hoursInRange_nonneg (b : Booking) (startHour endHour : Int)
    (hwin : startHour < endHour) :
    0 ≤ calculateBookingHoursInRange b startHour endHour := by
  unfold calculateBookingHoursInRange
  split
  · have : (0 : Int) ≤ endHour - startHour := by omega
    exact_mod_cast this
  · exact negGuard_nonneg _

/-- Witness for C5 at a concrete booking lying outside the window. -/
theorem hoursInRange_nonneg_witness :
    (6 : Int) < 18 ∧
      0 ≤ calculateBookingHoursInRange
            { title := "early", startTime := { day := 5, hour := 4, min := 0 },
              endTime := { day := 5, hour := 5, min := 0 }, durationMin := 60 } 6 18 :=
  ⟨by decide, hoursInRange_nonneg _ 6 18 (by decide)⟩

/-- C6: `getWeekStart` rounds down to the most recent Monday: in general it
subtracts `(weekday - 1 + 7) % 7` days (Go weekday numbering, Monday = 1);
on a Monday it returns its input unchanged, and on a Sunday it moves 6 days
back. -/
theorem getWeekStart_monday (t u s : GoTime)
    (hu : u.weekday = 1) (hs : s.weekday = 0) :
    (getWeekStart t).day = t.day - ((t.weekday - 1) + 7) % 7
      ∧ getWeekStart u = u
      ∧ (getWeekStart s).day = s.day - 6 := by
  have h0 : 0 ≤ t.weekday := Int.emod_nonneg _ (by norm_num)
  have h7 : t.weekday < 7 := Int.emod_lt_of_pos _ (by norm_num)
  refine ⟨?_, ?_, ?_⟩
  · unfold getWeekStart
    dsimp only
    split <;> omega
  · cases u with
    | mk d hh mm =>
      unfold getWeekStart
      simp only [GoTime.weekday] at hu ⊢
      rw [hu]
      norm_num
  · unfold getWeekStart
    rw [hs]
    norm_num

/-- Witness for C6 at a Tuesday, a Monday and a Sunday (absolute day 0 is a
Monday, so days 8, 7, 6 are a Tuesday, Monday, Sunday respectively). -/
theorem getWeekStart_monday_witness :
    GoTime.weekday { day := 7, hour := 9, min := 30 } = 1 ∧
    GoTime.weekday { day := 6, hour := 23, min := 5 } = 0 ∧
    ((getWeekStart { day := 8, hour := 10, min := 0 }).day
        = 8 - ((GoTime.weekday { day := 8, hour := 10, min := 0 } - 1) + 7) % 7
      ∧ getWeekStart { day := 7, hour := 9, min := 30 } = { day := 7, hour := 9, min := 30 }
      ∧ (getWeekStart { day := 6, hour := 23, min := 5 }).day = 6 - 6) :=
  ⟨by decide, by decide,
    getWeekStart_monday { day := 8, hour := 10, min := 0 } { day := 7, hour := 9, min := 30 }
      { day := 6, hour := 23, min := 5 } (by decide) (by decide)⟩

/-- C10: a non-all-day booking spanning several days is credited more than
one full operating day by a single clipper call (Monday 07:00 – Wednesday
17:00 with window [6,18) yields 58 hours, far above 12). -/
theorem hoursInRange_canExceedWindow :
    ∃ (b : Booking) (startHour endHour : Int),
      ¬(b.startTime.hour = 0 ∧ b.startTime.min = 0) ∧ startHour < endHour ∧
      ((endHour - startHour : Int) : ℚ) < calculateBookingHoursInRange b startHour endHour := by
  refine ⟨{ title := "multi-day", startTime := { day := 0, hour := 7, min := 0 },
            endTime := { day := 2, hour := 17, min := 0 }, durationMin := 3480 },
          6, 18, by decide, by decide, ?_⟩
  norm_num [calculateBookingHoursInRange, GoTime.sub]

/-- A booking lying entirely at/after the window's end hour, inside the
hour beginning at `endHour` (18:15–18:45 with window [6,18)). -/
def cexOutsideBooking : Booking :=
  { title := "late", startTime := { day := 800, hour := 18, min := 15 },
    endTime := { day := 800, hour := 18, min := 45 }, durationMin := 30 }

/-- Counterexample to C2 as stated: `cexOutsideBooking` is a single-day,
non-all-day booking lying entirely at/after `endHour = 18`, yet the
clipper credits it 1/2 hour instead of 0 (the end clamp only fires when
the end's hour strictly exceeds `endHour`). -/
theorem hoursInRange_outside_cex :
    cexOutsideBooking.startTime.Valid ∧ cexOutsideBooking.endTime.Valid ∧
    cexOutsideBooking.endTime.day = cexOutsideBooking.startTime.day ∧
    ¬(cexOutsideBooking.startTime.hour = 0 ∧ cexOutsideBooking.startTime.min = 0) ∧
    18 * 60 ≤ cexOutsideBooking.startTime.tod ∧
    0 ≤ GoTime.sub cexOutsideBooking.endTime cexOutsideBooking.startTime ∧
    calculateBookingHoursInRange cexOutsideBooking 6 18 = 1 / 2 ∧
    calculateBookingHoursInRange cexOutsideBooking 6 18 ≠ 0 := by
  have hval : calculateBookingHoursInRange cexOutsideBooking 6 18 = 1 / 2 := by
    norm_num [calculateBookingHoursInRange, cexOutsideBooking, GoTime.sub]
  refine ⟨by decide, by decide, by decide, by decide, by decide, by decide, hval, ?_⟩
  rw [hval]
  norm_num

/-- A booking starting at exactly midnight inside a window whose
`startHour` is 0: the all-day branch fires even though the booking lies
fully inside the window. -/
def cexMidnightBooking : Booking :=
  { title := "midnight", startTime := { day := 800, hour := 0, min := 0 },
    endTime := { day := 800, hour := 1, min := 0 }, durationMin := 60 }

/-- Counterexample to C3 as stated: with window [0,2) the booking
00:00–01:00 has start and end hours inside the window on one day and
`Duration = end - start`, yet the clipper returns 2 (the all-day branch)
instead of its 1-hour duration. -/
theorem hoursInRange_inside_cex :
    0 ≤ cexMidnightBooking.startTime.hour ∧ cexMidnightBooking.startTime.hour < 2 ∧
    0 ≤ cexMidnightBooking.endTime.hour ∧ cexMidnightBooking.endTime.hour < 2 ∧
    cexMidnightBooking.endTime.day = cexMidnightBooking.startTime.day ∧
    cexMidnightBooking.durationMin
      = GoTime.sub cexMidnightBooking.endTime cexMidnightBooking.startTime ∧
    0 ≤ cexMidnightBooking.durationMin ∧
    calculateBookingHoursInRange cexMidnightBooking 0 2
      ≠ (cexMidnightBooking.durationMin : ℚ) / 60 := by
  refine ⟨by decide, by decide, by decide, by decide, by decide, by decide, by decide, ?_⟩
  norm_num [calculateBookingHoursInRange, cexMidnightBooking, GoTime.sub]

/-- The final guard of the clipper maps a non-positive minute count to 0. -/
theorem negGuard_eq_zero (S : Int) (h : S ≤ 0) :
    (if ((S : Int) : ℚ) / 60 < 0 then (0 : ℚ) else ((S : Int) : ℚ) / 60) = 0 := by
  by_cases hS : S < 0
  · rw [if_pos]
    exact div_neg_of_neg_of_pos (by exact_mod_cast hS) (by norm_num)
  · have h0 : S = 0 := le_antisymm h (not_lt.mp hS)
    subst h0
    norm_num

/-- C2 (amended): a single-day, non-all-day booking with `end ≥ start`
lying fully outside `[startHour, endHour)` is credited 0 hours, except
when both its endpoints fall inside the hour beginning at `endHour`
(start hour = end hour = `endHour`), where the raw duration
`(end.min - start.min)/60` is returned instead. -/
theorem hoursInRange_outside_amended (b : Booking) (startHour endHour : Int)
    (hvs : b.startTime.Valid) (hve : b.endTime.Valid)
    (hday : b.endTime.day = b.startTime.day)
    (hna : ¬(b.startTime.hour = 0 ∧ b.startTime.min = 0))
    (hwin : startHour < endHour)
    (hord : 0 ≤ GoTime.sub b.endTime b.startTime)
    (hout : b.endTime.tod ≤ startHour * 60 ∨ endHour * 60 ≤ b.startTime.tod) :
    calculateBookingHoursInRange b startHour endHour =
      if b.startTime.hour = endHour ∧ b.endTime.hour = endHour then
        ((b.endTime.min - b.startTime.min : Int) : ℚ) / 60
      else 0 := by
  obtain ⟨title, st, en, dm⟩ := b
  obtain ⟨sd, sh, sm⟩ := st
  obtain ⟨ed, eh, em⟩ := en
  obtain ⟨hsh0, hsh24, hsm0, hsm60⟩ : 0 ≤ sh ∧ sh < 24 ∧ 0 ≤ sm ∧ sm < 60 := hvs
  obtain ⟨heh0, heh24, hem0, hem60⟩ : 0 ≤ eh ∧ eh < 24 ∧ 0 ≤ em ∧ em < 60 := hve
  have hday' : ed = sd := hday
  have hna' : ¬(sh = 0 ∧ sm = 0) := hna
  have hord' : 0 ≤ (ed - sd) * 1440 + (eh - sh) * 60 + (em - sm) := hord
  have hout' : eh * 60 + em ≤ startHour * 60 ∨ endHour * 60 ≤ sh * 60 + sm := hout
  clear hday hna hord hout
  show (if sh = 0 ∧ sm = 0 then ((endHour - startHour : Int) : ℚ)
    else if ((GoTime.sub
          (if eh > endHour then { day := ed, hour := endHour, min := 0 }
           else { day := ed, hour := eh, min := em })
          (if sh < startHour then { day := sd, hour := startHour, min := 0 }
           else { day := sd, hour := sh, min := sm }) : Int) : ℚ) / 60 < 0 then 0
    else ((GoTime.sub
          (if eh > endHour then { day := ed, hour := endHour, min := 0 }
           else { day := ed, hour := eh, min := em })
          (if sh < startHour then { day := sd, hour := startHour, min := 0 }
           else { day := sd, hour := sh, min := sm }) : Int) : ℚ) / 60)
    = if sh = endHour ∧ eh = endHour then ((em - sm : Int) : ℚ) / 60 else 0
  rw [if_neg hna']
  rcases hout' with hbefore | hafter
  · -- entirely before startHour: the raw-duration exception cannot fire
    rw [if_neg (show ¬ (sh = endHour ∧ eh = endHour) by omega)]
    rw [if_neg (show ¬ eh > endHour by omega)]
    by_cases hsc : sh < startHour
    · rw [if_pos hsc]
      show (if (((ed - sd) * 1440 + (eh - startHour) * 60 + (em - 0) : Int) : ℚ) / 60 < 0
            then (0 : ℚ)
            else (((ed - sd) * 1440 + (eh - startHour) * 60 + (em - 0) : Int) : ℚ) / 60) = 0
      exact negGuard_eq_zero _ (by omega)
    · rw [if_neg hsc]
      show (if (((ed - sd) * 1440 + (eh - sh) * 60 + (em - sm) : Int) : ℚ) / 60 < 0
            then (0 : ℚ)
            else (((ed - sd) * 1440 + (eh - sh) * 60 + (em - sm) : Int) : ℚ) / 60) = 0
      exact negGuard_eq_zero _ (by omega)
  · -- entirely at/after endHour
    rw [if_neg (show ¬ sh < startHour by omega)]
    by_cases hec : eh > endHour
    · rw [if_pos hec]
      rw [if_neg (show ¬ (sh = endHour ∧ eh = endHour) by omega)]
      show (if (((ed - sd) * 1440 + (endHour - sh) * 60 + (0 - sm) : Int) : ℚ) / 60 < 0
            then (0 : ℚ)
            else (((ed - sd) * 1440 + (endHour - sh) * 60 + (0 - sm) : Int) : ℚ) / 60) = 0
      exact negGuard_eq_zero _ (by omega)
    · rw [if_neg hec]
      rw [if_pos (show sh = endHour ∧ eh = endHour from ⟨by omega, by omega⟩)]
      show (if (((ed - sd) * 1440 + (eh - sh) * 60 + (em - sm) : Int) : ℚ) / 60 < 0
            then (0 : ℚ)
            else (((ed - sd) * 1440 + (eh - sh) * 60 + (em - sm) : Int) : ℚ) / 60)
        = ((em - sm : Int) : ℚ) / 60
      have hS : (ed - sd) * 1440 + (eh - sh) * 60 + (em - sm) = em - sm := by omega
      rw [hS]
      rw [if_neg (not_lt.mpr (div_nonneg
        (by exact_mod_cast (show (0 : Int) ≤ em - sm by omega)) (by norm_num)))]

/-- A concrete booking entirely before the operating window
(04:30–05:30 with window [6,18)). -/
def cexBeforeBooking : Booking :=
  { title := "early", startTime := { day := 5, hour := 4, min := 30 },
    endTime := { day := 5, hour := 5, min := 30 }, durationMin := 60 }

/-- Witness for the amended C2 at `cexBeforeBooking` with window [6,18). -/
theorem hoursInRange_outside_amended_witness :
    calculateBookingHoursInRange cexBeforeBooking 6 18 =
      if cexBeforeBooking.startTime.hour = 18 ∧ cexBeforeBooking.endTime.hour = 18 then
        ((cexBeforeBooking.endTime.min - cexBeforeBooking.startTime.min : Int) : ℚ) / 60
      else 0 :=
  hoursInRange_outside_amended cexBeforeBooking 6 18 (by decide) (by decide) (by decide)
    (by decide) (by decide) (by decide) (Or.inl (by decide))

/-- C3 (amended): a booking not flagged all-day, with `end ≥ start`, whose
start and end hours both lie in `[startHour, endHour)` on its own calendar
day, and whose stored `Duration` is `end - start`, is credited exactly its
duration in hours. -/
theorem hoursInRange_inside_amended (b : Booking) (startHour endHour : Int)
    (hna : ¬(b.startTime.hour = 0 ∧ b.startTime.min = 0))
    (hs1 : startHour ≤ b.startTime.hour) (he1 : b.startTime.hour < endHour)
    (hs2 : startHour ≤ b.endTime.hour) (he2 : b.endTime.hour < endHour)
    (hday : b.endTime.day = b.startTime.day)
    (hdur : b.durationMin = GoTime.sub b.endTime b.startTime)
    (hnn : 0 ≤ b.durationMin) :
    calculateBookingHoursInRange b startHour endHour = (b.durationMin : ℚ) / 60 := by
  unfold calculateBookingHoursInRange
  rw [if_neg hna]
  simp only
  rw [if_neg (by omega : ¬ b.startTime.hour < startHour)]
  rw [if_neg (by omega : ¬ b.endTime.hour > endHour)]
  rw [← hdur]
  rw [if_neg (not_lt.mpr (div_nonneg (by exact_mod_cast hnn) (by norm_num)))]

/-- Witness for the amended C3 at a booking 08:00–10:00 with window [6,18). -/
theorem hoursInRange_inside_amended_witness :
    calculateBookingHoursInRange
        { title := "inside", startTime := { day := 12, hour := 8, min := 0 },
          endTime := { day := 12, hour := 10, min := 0 }, durationMin := 120 } 6 18
      = ((120 : Int) : ℚ) / 60 :=
  hoursInRange_inside_amended _ 6 18 (by decide) (by decide) (by decide) (by decide)
    (by decide) (by decide) (by decide) (by decide)

/-- C9: the normalizer emits, in input order, exactly one fully-filled
`Booking` per record whose start and end markers are present and parse,
and nothing for any other record — i.e. it is the `filterMap` of the
spec's per-record conversion, for every choice of the external timestamp
parsers. -/
theorem parseBookings_eq_filterMap (pR pD : String → Option GoTime) (events : List Event) :
    parseBookings pR pD events = events.filterMap (eventToBookingSpec pR pD) := by
  induction events with
  | nil => rfl
  | cons item rest ih =>
    obtain ⟨summary, si, ei⟩ := item
    cases si with
    | none => cases ei <;> simp [parseBookings, eventToBookingSpec, ih]
    | some st =>
      cases ei with
      | none => simp [parseBookings, eventToBookingSpec, ih]
      | some en =>
        cases hps : (if st.dateTime ≠ "" then pR st.dateTime else pD st.date) with
        | none => simp [parseBookings, eventToBookingSpec, markerTime, hps, ih]
        | some s0 =>
          cases hpe : (if en.dateTime ≠ "" then pR en.dateTime else pD en.date) with
          | none => simp [parseBookings, eventToBookingSpec, markerTime, hps, hpe, ih]
          | some e0 => simp [parseBookings, eventToBookingSpec, markerTime, hps, hpe, ih]

/-- Adding one booking to the map model adds exactly its value to the total
over all buckets. -/
theorem addToGroup_sum (f : Booking → ℚ) (gs : List (Int × List Booking)) (k : Int)
    (b : Booking) :
    ((addToGroup gs k b).map (fun p => (p.2.map f).sum)).sum
      = ((gs.map (fun p => (p.2.map f).sum)).sum) + f b := by
  induction gs with
  | nil => simp [addToGroup]
  | cons hd tl ih =>
    obtain ⟨k0, bs⟩ := hd
    by_cases h : k = k0
    · simp [addToGroup, h]
      ring
    · simp [addToGroup, h, ih]
      ring

/-- The grouping loop preserves the total of `f` over all bucketed
bookings, for any starting map state. -/
theorem foldl_addToGroup_sum (f : Booking → ℚ) (keyOf : Booking → Int)
    (bookings : List Booking) :
    ∀ gs : List (Int × List Booking),
      (((bookings.foldl (fun gs b => addToGroup gs (keyOf b) b) gs).map
          (fun p => (p.2.map f).sum)).sum)
        = ((gs.map (fun p => (p.2.map f).sum)).sum) + (bookings.map f).sum := by
  induction bookings with
  | nil =>
    intro gs
    simp
  | cons b rest ih =>
    intro gs
    rw [List.foldl_cons, ih, addToGroup_sum]
    simp [List.map_cons, List.sum_cons]
    ring

/-- C1: the daily aggregator conserves clipped hours — the sum of
`totalHours` over all emitted day buckets equals the sum of
`calculateBookingHoursInRange` over the input bookings (each booking lands
in exactly one bucket, keyed by its start date). -/
theorem calculateDailyStats_totalHours_sum (bookings : List Booking)
    (config : UtilizationConfig) (hwin : config.startHour < config.endHour) :
    ((calculateDailyStats bookings config).map (fun d => d.totalHours)).sum
      = (bookings.map (fun b =>
          calculateBookingHoursInRange b config.startHour config.endHour)).sum := by
  unfold calculateDailyStats groupBookingsBy
  rw [List.map_map]
  have hcomp : ((fun d => DayStats.totalHours d) ∘ dayStatsOf config)
      = fun p : Int × List Booking =>
          (p.2.map (fun b =>
            calculateBookingHoursInRange b config.startHour config.endHour)).sum := by
    funext p
    rfl
  rw [hcomp, foldl_addToGroup_sum]
  simp

/-- Default window and two demo bookings in one calendar week (days 3 and
4 of the absolute calendar), used to instantiate the aggregation
theorems. -/
def demoConfig : UtilizationConfig :=
  { startHour := 6, endHour := 18, showDailyStats := true, showWeeklyStats := true }

def demoBookings : List Booking :=
  [ { title := "morning", startTime := { day := 3, hour := 8, min := 0 },
      endTime := { day := 3, hour := 10, min := 0 }, durationMin := 120 },
    { title := "long", startTime := { day := 4, hour := 5, min := 0 },
      endTime := { day := 4, hour := 19, min := 0 }, durationMin := 840 } ]

/-- Witness for C1 on the demo bookings and default window. -/
theorem calculateDailyStats_totalHours_sum_witness :
    demoConfig.startHour < demoConfig.endHour ∧
    ((calculateDailyStats demoBookings demoConfig).map (fun d => d.totalHours)).sum
      = (demoBookings.map (fun b =>
          calculateBookingHoursInRange b demoConfig.startHour demoConfig.endHour)).sum :=
  ⟨by decide, calculateDailyStats_totalHours_sum demoBookings demoConfig (by decide)⟩

/-- C7: every emitted `WeekStats` has `totalHours` equal to the sum of the
`totalHours` of the `DayStats` in its `days` field. -/
theorem calculateWeeklyStats_totalHours_eq (bookings : List Booking)
    (config : UtilizationConfig) (ws : WeekStats)
    (h : ws ∈ calculateWeeklyStats bookings config) :
    ws.totalHours = (ws.days.map (fun d => d.totalHours)).sum := by
  unfold calculateWeeklyStats at h
  obtain ⟨bucket, hb, rfl⟩ := List.mem_map.mp h
  rfl

/-- The demo bookings form a single week bucket (their common Monday is
absolute day 0). -/
theorem demo_weekGroups : groupBookingsBy weekKey demoBookings = [(0, demoBookings)] := by
  decide

/-- Witness for C7 at the single week bucket of the demo bookings. -/
theorem calculateWeeklyStats_totalHours_eq_witness :
    (weekStatsOf demoConfig (0, demoBookings)).totalHours
      = ((weekStatsOf demoConfig (0, demoBookings)).days.map (fun d => d.totalHours)).sum :=
  calculateWeeklyStats_totalHours_eq demoBookings demoConfig _ (by
    show weekStatsOf demoConfig (0, demoBookings)
      ∈ calculateWeeklyStats demoBookings demoConfig
    unfold calculateWeeklyStats
    rw [demo_weekGroups]
    simp)

/-- C8: every emitted `WeekStats` has
`utilization = totalHours / (7 * (endHour - startHour)) * 100`, the
denominator always assuming 7 operating days. -/
theorem calculateWeeklyStats_utilization_eq (bookings : List Booking)
    (config : UtilizationConfig) (ws : WeekStats)
    (h : ws ∈ calculateWeeklyStats bookings config) :
    ws.utilization
      = ws.totalHours / ((7 * (config.endHour - config.startHour) : Int) : ℚ) * 100 := by
  unfold calculateWeeklyStats at h
  obtain ⟨bucket, hb, rfl⟩ := List.mem_map.mp h
  rfl

/-- Witness for C8 at the single week bucket of the demo bookings. -/
theorem calculateWeeklyStats_utilization_eq_witness :
    (weekStatsOf demoConfig (0, demoBookings)).utilization
      = (weekStatsOf demoConfig (0, demoBookings)).totalHours
          / ((7 * (demoConfig.endHour - demoConfig.startHour) : Int) : ℚ) * 100 :=
  calculateWeeklyStats_utilization_eq demoBookings demoConfig _ (by
    show weekStatsOf demoConfig (0, demoBookings)
      ∈ calculateWeeklyStats demoBookings demoConfig
    unfold calculateWeeklyStats
    rw [demo_weekGroups]
    simp)

end CardinhamTennis
